import Mathlib

/-!
Verification of the CometBFT direct-broadcast dissemination core
(mempool reactor sender attribution and consensus reactor peer-round-state
bookkeeping), shallowly embedded from the Go source.

Machine integers (`int32`, `int64`) are modelled as `Int`; where overflow can
matter (the per-tx unchecked remove counter, a Go `int32`) the wrap-around is
made explicit via `int32wrap`.  Go `map` values are modelled as association
lists, Go `nil`-able `*BitArray` pointers as `Option (List Bool)`.
-/

namespace Mempool

/-- Transaction key (content-addressed hash of the tx bytes).  Content
addressing is modelled by taking the key to be the transaction itself, so key
equality coincides with tx equality. -/
abbrev TxKey := Nat

/-- Opaque stable peer identifier (`p2p.ID`). -/
abbrev PeerID := Nat

/-- A transaction, opaque bytes; identified with its `TxKey`. -/
abbrev Tx := Nat

/-- `tx.Key()`: the content-addressed key of a transaction. -/
def txKey (t : Tx) : TxKey := t

/-- Go map lookup on an association list. -/
def mapGet {α : Type} : List (TxKey × α) → TxKey → Option α
  | [], _ => none
  | (k', v) :: rest, k => if k' = k then some v else mapGet rest k

/-- Go map assignment `m[k] = v` on an association list. -/
def mapSet {α : Type} : List (TxKey × α) → TxKey → α → List (TxKey × α)
  | [], k, v => [(k, v)]
  | (k', v') :: rest, k, v =>
      if k' = k then (k', v) :: rest else (k', v') :: mapSet rest k v

/-- Go `delete(m, k)` on an association list. -/
def mapDel {α : Type} : List (TxKey × α) → TxKey → List (TxKey × α)
  | [], _ => []
  | (k', v') :: rest, k =>
      if k' = k then mapDel rest k else (k', v') :: mapDel rest k

/-- Two's-complement wrap of a Go `int32` value. -/
def int32wrap (n : Int) : Int := (n + 2147483648) % 4294967296 - 2147483648

/-- The mempool `Reactor`'s sender-attribution state (the fields of the Go
`Reactor` struct that the dissemination claims are about):
`txSenders`, `txSendersUnchecked`, `txSendersUncheckedRemoveCount`, the
reactor-local `peers` set, and the `waitSync` flag.  Peer-ID sets
(`map p2p.ID bool` / `map p2p.ID struct\x7b\x7d`) are modelled as duplicate-free
lists built by insert-if-absent. -/
structure ReactorState where
  txSenders : List (TxKey × List PeerID)
  txSendersUnchecked : List (TxKey × List PeerID)
  txSendersUncheckedRemoveCount : List (TxKey × Int)
  peers : List PeerID
  waitSync : Bool
deriving Repr, DecidableEq

/-- `isSender`: whether `peerID` is recorded in `txSenders[txKey]`. -/
def isSender (s : ReactorState) (k : TxKey) (p : PeerID) : Bool :=
  match mapGet s.txSenders k with
  | some sendersSet => sendersSet.contains p
  | none => false

/-- `addSender`: record `senderID` in `txSenders[txKey]` (set insert). -/
def addSender (s : ReactorState) (k : TxKey) (p : PeerID) : ReactorState :=
  match mapGet s.txSenders k with
  | some sendersSet =>
      { s with txSenders :=
          mapSet s.txSenders k (if sendersSet.contains p then sendersSet else sendersSet ++ [p]) }
  | none => { s with txSenders := mapSet s.txSenders k [p] }

/-- `removeSenders`: the tx-removed callback erases the whole `txSenders`
entry for `txKey`. -/
def removeSenders (s : ReactorState) (k : TxKey) : ReactorState :=
  { s with txSenders := mapDel s.txSenders k }

/-- `addSenderUnchecked`: record `senderID` in `txSendersUnchecked[txKey]`,
before CheckTx completes. -/
def addSenderUnchecked (s : ReactorState) (k : TxKey) (p : PeerID) : ReactorState :=
  match mapGet s.txSendersUnchecked k with
  | some sendersSet =>
      { s with txSendersUnchecked :=
          mapSet s.txSendersUnchecked k (if sendersSet.contains p then sendersSet else sendersSet ++ [p]) }
  | none => { s with txSendersUnchecked := mapSet s.txSendersUnchecked k [p] }

/-- `removeSendersUnchecked`: erase the `txSendersUnchecked` entry for
`txKey`. -/
def removeSendersUnchecked (s : ReactorState) (k : TxKey) : ReactorState :=
  { s with txSendersUnchecked := mapDel s.txSendersUnchecked k }

/-- `increaseSendersUncheckedRemoveCount`: increment (as a Go `int32`) and
return `txSendersUncheckedRemoveCount[txKey]`; a missing key reads as 0. -/
def increaseSendersUncheckedRemoveCount (s : ReactorState) (k : TxKey) :
    ReactorState × Int :=
  let c := (mapGet s.txSendersUncheckedRemoveCount k).getD 0
  let c' := int32wrap (c + 1)
  ({ s with txSendersUncheckedRemoveCount := mapSet s.txSendersUncheckedRemoveCount k c' }, c')

/-- The senders recorded in `txSendersUnchecked[txKey]` (empty if absent). -/
def senderListUnchecked (s : ReactorState) (k : TxKey) : List PeerID :=
  (mapGet s.txSendersUnchecked k).getD []

/-- The senders recorded in `txSenders[txKey]` (empty if absent). -/
def senderList (s : ReactorState) (k : TxKey) : List PeerID :=
  (mapGet s.txSenders k).getD []

/-- One evaluated iteration of `broadcastTxRoutine` for transaction key `k`
and target peer `p` (the loop body from the `isFromPeer` computation through
the send decision; the earlier peer-lagging / missing-peer-state paths sleep
and `continue` without touching any reactor state and without sending).
Returns the updated state and whether a `Txs` envelope carrying the tx is
sent to `p`:
  * `isFromPeer` is true iff some sender in `txSendersUnchecked[k]` is in the
    reactor's `peers` set (computed before the remove-count increment);
  * the remove count for `k` is incremented, and on reaching 3 (the
    hard-coded threshold) the `txSendersUnchecked` entry is deleted;
  * the envelope is sent iff `!isSender(k, p) && !isFromPeer`. -/
def broadcastStep (s : ReactorState) (k : TxKey) (p : PeerID) :
    ReactorState × Bool :=
  let isFromPeer := (senderListUnchecked s k).any (fun q => s.peers.contains q)
  let inc := increaseSendersUncheckedRemoveCount s k
  let s2 := if 3 ≤ inc.2 then removeSendersUnchecked inc.1 k else inc.1
  let send := !isSender s2 k p && !isFromPeer
  (s2, send)

/-- Run a sequence of broadcast-routine iterations, each given by the tx key
it evaluates and the peer its routine serves; collect the (key, peer) pairs
for which a `Txs` envelope was sent. -/
def runBroadcast : ReactorState → List (TxKey × PeerID) →
    ReactorState × List (TxKey × PeerID)
  | s, [] => (s, [])
  | s, (k, p) :: rest =>
      let step := broadcastStep s k p
      let tail := runBroadcast step.1 rest
      (tail.1, (if step.2 then [(k, p)] else []) ++ tail.2)

/-- Iterate `broadcastStep` on key `k`, one visit per peer in the list. -/
def visitN : ReactorState → TxKey → List PeerID → ReactorState
  | s, _, [] => s
  | s, k, p :: rest => visitN (broadcastStep s k p).1 k rest

/-- Outcome of `mempool.CheckTx(tx)` as seen by `Receive`: the synchronous
error (`ErrTxInCache` / other) or the asynchronous ABCI response code
delivered to the one-shot callback. -/
inductive CheckOutcome where
  | errTxInCache : CheckOutcome
  | errOther : CheckOutcome
  | respond (code : Nat) : CheckOutcome
deriving Repr, DecidableEq

/-- A decoded message arriving on the mempool channel: a `Txs` batch, or a
message of unknown type. -/
inductive MempoolMsg where
  | txs (l : List Tx) : MempoolMsg
  | other : MempoolMsg
deriving Repr, DecidableEq

/-- Observable effects of `Reactor.Receive`: the updated sender-attribution
state, the transactions passed to `CheckTx`, and whether
`Switch.StopPeerForError` was invoked on the source peer. -/
structure ReceiveEffects where
  state : ReactorState
  checkTxCalled : List Tx
  stoppedPeer : Bool
deriving Repr, DecidableEq

/-- Per-transaction body of the `Receive` loop: record `src` in
`txSendersUnchecked[tx.Key()]`, invoke `CheckTx`, and (modelling the one-shot
response callback at the point it fires) add `src` to `txSenders[tx.Key()]`
iff the ABCI response code is OK (0).  Synchronous CheckTx errors only log. -/
def receiveTx (s : ReactorState) (src : PeerID) (check : Tx → CheckOutcome)
    (t : Tx) : ReactorState :=
  let s1 := addSenderUnchecked s (txKey t) src
  match check t with
  | .errTxInCache => s1
  | .errOther => s1
  | .respond code => if code = 0 then addSender s1 (txKey t) src else s1

/-- `Reactor.Receive` on a decoded envelope from peer `src`:
  * `Txs` while `waitSync`: dropped (log only);
  * `Txs` with an empty batch: log error and return;
  * `Txs` otherwise: process each tx via `receiveTx`;
  * unknown message type: `StopPeerForError(src)` — note this branch is
    reached regardless of `waitSync`. -/
def receive (s : ReactorState) (src : PeerID) (check : Tx → CheckOutcome) :
    MempoolMsg → ReceiveEffects
  | .txs l =>
      if s.waitSync then { state := s, checkTxCalled := [], stoppedPeer := false }
      else if l.isEmpty then { state := s, checkTxCalled := [], stoppedPeer := false }
      else
        { state := l.foldl (fun acc t => receiveTx acc src check t) s,
          checkTxCalled := l, stoppedPeer := false }
  | .other => { state := s, checkTxCalled := [], stoppedPeer := true }

end Mempool

namespace Cons

/-!
Consensus reactor: peer-round-state bookkeeping and the votes dissemination
loop, embedded from `internal/consensus/reactor.go`.

Go `*bits.BitArray` pointers are modelled as `Option (List Bool)` (`none` is
the `nil` pointer); the bit-array operations themselves (`Sub`, `Or`,
`Update`, `SetIndex`, `PickRandom`, `NewBitArray`) are from the `libs/bits`
collaborator package, modelled from the spec.  Pointer aliasing between
bit-array fields is not modelled: each `PeerRoundState` field is tracked as an
independent value.
-/

/-- Bit `i` of a bit array (false beyond the size, and on the `nil` array). -/
def baGet (l : List Bool) (i : Nat) : Bool := l.getD i false

/-- Modelled from the spec: `bits.NewBitArray(n)`, an all-false array of `n`
bits. -/
def newBitArray (n : Nat) : List Bool := List.replicate n false

/-- Modelled from the spec: `BitArray.SetIndex(i, v)`; out-of-range indices
are a no-op. -/
def baSetIndex (l : List Bool) (i : Nat) (v : Bool) : List Bool :=
  if i < l.length then l.set i v else l

/-- Modelled from the spec: `a.Sub(b)`, the set difference `a AND NOT b`;
the result keeps `a`'s size, with `b`'s missing high bits read as false. -/
def baSub : List Bool → List Bool → List Bool
  | [], _ => []
  | a, [] => a
  | x :: a, y :: b => (x && !y) :: baSub a b

/-- Modelled from the spec: `a.Or(b)`, bitwise or, sized to the longer
argument. -/
def baOr : List Bool → List Bool → List Bool
  | [], b => b
  | a, [] => a
  | x :: a, y :: b => (x || y) :: baOr a b

/-- Modelled from the spec: `a.Update(b)` copies `b`'s bits into `a`
(keeping `a`'s size). -/
def baUpdate : List Bool → List Bool → List Bool
  | [], _ => []
  | a, [] => a
  | _ :: a, y :: b => y :: baUpdate a b

/-- The indices of the true bits of a bit array, in increasing order. -/
def trueIndices (l : List Bool) : List Nat :=
  (List.range l.length).filter (fun i => baGet l i)

/-- Modelled from the spec: `BitArray.PickRandom()` picks a uniformly random
true bit.  The random choice is made explicit by a `seed`: every true index
is returned for some seed, and only true indices are ever returned. -/
def pickRandom (seed : Nat) (l : List Bool) : Option Nat :=
  let t := trueIndices l
  if h : t.length = 0 then none else some (t.get ⟨seed % t.length, Nat.mod_lt _ (Nat.pos_of_ne_zero h)⟩)

/-- Consensus steps, modelled from the spec (glossary): the phase within a
round, ordered NewHeight < Propose < Prevote < PrevoteWait < Precommit <
PrecommitWait < Commit. -/
def RoundStepNewHeight : Nat := 1

/-- Step `Propose`. -/
def RoundStepPropose : Nat := 2

/-- Step `Prevote`. -/
def RoundStepPrevote : Nat := 3

/-- Step `PrevoteWait`. -/
def RoundStepPrevoteWait : Nat := 4

/-- Step `Precommit`. -/
def RoundStepPrecommit : Nat := 5

/-- Step `PrecommitWait`. -/
def RoundStepPrecommitWait : Nat := 6

/-- Step `Commit`. -/
def RoundStepCommit : Nat := 7

/-- Modelled from the spec: `types.SignedMsgType` prevote tag. -/
def PrevoteType : Nat := 1

/-- Modelled from the spec: `types.SignedMsgType` precommit tag. -/
def PrecommitType : Nat := 2

/-- Modelled from the spec: `types.IsVoteTypeValid` — only prevote and
precommit are valid vote types. -/
def IsVoteTypeValid (t : Nat) : Bool := t = PrevoteType || t = PrecommitType

/-- `types.PartSetHeader`: total part count plus the Merkle hash. -/
structure PartSetHeader where
  total : Nat
  hash : Nat
deriving Repr, DecidableEq

/-- The zero `PartSetHeader` (`types.PartSetHeader\x7b\x7d`). -/
def PartSetHeader.empty : PartSetHeader := ⟨0, 0⟩

/-- `cstypes.PeerRoundState`: the known state of a peer, mutated by the
receive path and by our send path.  `StartTime` is modelled in whole seconds.
Sentinel `-1` rounds mean unknown / not applicable. -/
structure PeerRoundState where
  height : Int
  round : Int
  step : Nat
  startTime : Int
  proposal : Bool
  proposalBlockPartSetHeader : PartSetHeader
  proposalBlockParts : Option (List Bool)
  proposalPOLRound : Int
  proposalPOL : Option (List Bool)
  prevotes : Option (List Bool)
  precommits : Option (List Bool)
  lastCommitRound : Int
  lastCommit : Option (List Bool)
  catchupCommitRound : Int
  catchupCommit : Option (List Bool)
deriving Repr, DecidableEq

/-- Modelled from the spec: `CompareHRS` compares two (Height, Round, Step)
triples lexicographically, returning -1, 0 or 1. -/
def compareHRS (h1 r1 : Int) (s1 : Nat) (h2 r2 : Int) (s2 : Nat) : Int :=
  if h1 < h2 then -1
  else if h1 > h2 then 1
  else if r1 < r2 then -1
  else if r1 > r2 then 1
  else if s1 < s2 then -1
  else if s1 > s2 then 1
  else 0

/-- `NewRoundStepMessage`. -/
structure NewRoundStepMsg where
  height : Int
  round : Int
  step : Nat
  secondsSinceStartTime : Int
  lastCommitRound : Int
deriving Repr, DecidableEq

/-- `PeerState.ApplyNewRoundStepMessage`:
ignore if `CompareHRS(msg, prs) ≤ 0`; otherwise adopt the message's
(Height, Round, Step), set `StartTime = now − msg.SecondsSinceStartTime`,
clear the proposal/vote fields on a height or round change, promote
`CatchupCommit` into `Precommits` when the peer caught up to the cached
catchup-commit round, and on a height change shift the old `Precommits` into
`LastCommit` exactly when the height advanced by one and the old round equals
`msg.LastCommitRound`. -/
def applyNewRoundStepMessage (prs : PeerRoundState) (msg : NewRoundStepMsg)
    (now : Int) : PeerRoundState :=
  if compareHRS msg.height msg.round msg.step prs.height prs.round prs.step ≤ 0 then prs
  else
    let psHeight := prs.height
    let psRound := prs.round
    let psCatchupCommitRound := prs.catchupCommitRound
    let psCatchupCommit := prs.catchupCommit
    let lastPrecommits := prs.precommits
    let startTime := now - msg.secondsSinceStartTime
    let prs1 := { prs with height := msg.height, round := msg.round,
                           step := msg.step, startTime := startTime }
    let prs2 :=
      if psHeight ≠ msg.height ∨ psRound ≠ msg.round then
        { prs1 with proposal := false,
                    proposalBlockPartSetHeader := PartSetHeader.empty,
                    proposalBlockParts := none,
                    proposalPOLRound := -1,
                    proposalPOL := none,
                    prevotes := none,
                    precommits := none }
      else prs1
    let prs3 :=
      if psHeight = msg.height ∧ psRound ≠ msg.round ∧ msg.round = psCatchupCommitRound then
        { prs2 with precommits := psCatchupCommit }
      else prs2
    if psHeight ≠ msg.height then
      let prs4 :=
        if psHeight + 1 = msg.height ∧ psRound = msg.lastCommitRound then
          { prs3 with lastCommitRound := msg.lastCommitRound,
                      lastCommit := lastPrecommits }
        else
          { prs3 with lastCommitRound := msg.lastCommitRound,
                      lastCommit := none }
      { prs4 with catchupCommitRound := -1, catchupCommit := none }
    else prs3

/-- `PeerState.getVoteBitArray(height, round, votesType)`: select the peer's
bit array for the given coordinates, or `nil` for every invalid or
non-matching combination.  The type-validity guard makes the per-type
branches exhaustive for prevote/precommit, as in the Go switch statements. -/
def getVoteBitArray (prs : PeerRoundState) (height round : Int) (t : Nat) :
    Option (List Bool) :=
  if !IsVoteTypeValid t then none
  else if prs.height = height then
    if prs.round = round then
      (if t = PrevoteType then prs.prevotes else prs.precommits)
    else if prs.catchupCommitRound = round then
      (if t = PrevoteType then none else prs.catchupCommit)
    else if prs.proposalPOLRound = round then
      (if t = PrevoteType then prs.proposalPOL else none)
    else none
  else if prs.height = height + 1 then
    if prs.lastCommitRound = round then
      (if t = PrevoteType then none else prs.lastCommit)
    else none
  else none

/-- Write-back companion of `getVoteBitArray`: store `ba` into the field that
`getVoteBitArray` selects for these coordinates (the Go code mutates the
selected `*BitArray` in place). -/
def updateVoteBitArray (prs : PeerRoundState) (height round : Int) (t : Nat)
    (ba : List Bool) : PeerRoundState :=
  if !IsVoteTypeValid t then prs
  else if prs.height = height then
    if prs.round = round then
      (if t = PrevoteType then { prs with prevotes := some ba }
       else { prs with precommits := some ba })
    else if prs.catchupCommitRound = round then
      (if t = PrevoteType then prs else { prs with catchupCommit := some ba })
    else if prs.proposalPOLRound = round then
      (if t = PrevoteType then { prs with proposalPOL := some ba } else prs)
    else prs
  else if prs.height = height + 1 then
    if prs.lastCommitRound = round then
      (if t = PrevoteType then prs else { prs with lastCommit := some ba })
    else prs
  else prs

/-- `PeerState.setHasVote`: set bit `index` of the bit array selected by
`getVoteBitArray`; a `nil` selection has no side effect. -/
def setHasVoteFn (prs : PeerRoundState) (height round : Int) (t : Nat)
    (index : Nat) : PeerRoundState :=
  match getVoteBitArray prs height round t with
  | none => prs
  | some ba => updateVoteBitArray prs height round t (baSetIndex ba index true)

/-- `HasVoteMessage`. -/
structure HasVoteMsg where
  height : Int
  round : Int
  voteType : Nat
  index : Nat
deriving Repr, DecidableEq

/-- `PeerState.ApplyHasVoteMessage`: ignore other heights, then
`setHasVote`. -/
def applyHasVoteMessage (prs : PeerRoundState) (m : HasVoteMsg) : PeerRoundState :=
  if prs.height ≠ m.height then prs
  else setHasVoteFn prs m.height m.round m.voteType m.index

/-- `PeerState.ensureVoteBitArrays`: lazily allocate the bit arrays for
`height` (or `LastCommit` for `height + 1`) at the given validator-set
size. -/
def ensureVoteBitArraysFn (prs : PeerRoundState) (height : Int)
    (numValidators : Nat) : PeerRoundState :=
  if prs.height = height then
    let prs := if prs.prevotes = none then { prs with prevotes := some (newBitArray numValidators) } else prs
    let prs := if prs.precommits = none then { prs with precommits := some (newBitArray numValidators) } else prs
    let prs := if prs.catchupCommit = none then { prs with catchupCommit := some (newBitArray numValidators) } else prs
    if prs.proposalPOL = none then { prs with proposalPOL := some (newBitArray numValidators) } else prs
  else if prs.height = height + 1 then
    if prs.lastCommit = none then { prs with lastCommit := some (newBitArray numValidators) } else prs
  else prs

/-- `PeerState.ensureCatchupCommitRound`: cache `round` as the peer's
catchup-commit round; reuse the peer's `Precommits` when the round matches
the peer's current round, else allocate fresh. -/
def ensureCatchupCommitRoundFn (prs : PeerRoundState) (height round : Int)
    (numValidators : Nat) : PeerRoundState :=
  if prs.height ≠ height then prs
  else if prs.catchupCommitRound = round then prs
  else
    let withRound := { prs with catchupCommitRound := round }
    if round = prs.round then { withRound with catchupCommit := prs.precommits }
    else { withRound with catchupCommit := some (newBitArray numValidators) }

/-- A vote, with the fields `SetHasVote` reads (`Height`, `Round`, `Type`,
`ValidatorIndex`). -/
structure Vote where
  height : Int
  round : Int
  voteType : Nat
  validatorIndex : Nat
deriving Repr, DecidableEq

/-- `types.VoteSetReader`, the read interface of a vote set: its coordinates,
whether it is a commit, its bit array (whose length is the validator-set
size, `Size()`), and `GetByIndex`. -/
structure VoteSetReader where
  height : Int
  round : Int
  voteType : Nat
  isCommit : Bool
  bitArray : List Bool
  getByIndex : Nat → Vote

/-- `PeerState.PickVoteToSend` on a possibly-`nil` vote set (a `nil`
`VoteSetReader` reads as size 0): lazily allocate the peer's bit arrays,
select the peer's bit array for the vote set's coordinates, and pick a
random vote from `votes.BitArray().Sub(psVotes)`.  Returns the picked vote
(if any) and the peer state after the lazy allocations. -/
def pickVoteToSend (prs : PeerRoundState) (votes : Option VoteSetReader)
    (seed : Nat) : Option Vote × PeerRoundState :=
  match votes with
  | none => (none, prs)
  | some v =>
      if v.bitArray.length = 0 then (none, prs)
      else
        let prs1 := if v.isCommit then
            ensureCatchupCommitRoundFn prs v.height v.round v.bitArray.length
          else prs
        let prs2 := ensureVoteBitArraysFn prs1 v.height v.bitArray.length
        match getVoteBitArray prs2 v.height v.round v.voteType with
        | none => (none, prs2)
        | some psVotes =>
            match pickRandom seed (baSub v.bitArray psVotes) with
            | some i => (some (v.getByIndex i), prs2)
            | none => (none, prs2)

/-- `PeerState.PickSendVote`: pick a vote, send it on the vote channel
(`sendOK` is the outcome of `peer.Send`), and on a successful send record it
via `SetHasVote`.  Returns whether a vote was sent, and the updated peer
state. -/
def pickSendVote (prs : PeerRoundState) (votes : Option VoteSetReader)
    (seed : Nat) (sendOK : Bool) : Bool × PeerRoundState :=
  match pickVoteToSend prs votes seed with
  | (some vote, prs1) =>
      if sendOK then
        (true, setHasVoteFn prs1 vote.height vote.round vote.voteType vote.validatorIndex)
      else (false, prs1)
  | (none, prs1) => (false, prs1)

/-- The slice of the local `RoundState` snapshot read by
`broadcastVotesForHeight`: our round, `LastCommit`, and the per-round
prevote/precommit vote sets (`rs.Votes.Prevotes(r)` / `Precommits(r)` may be
`nil`). -/
structure RoundStateView where
  round : Int
  lastCommit : Option VoteSetReader
  prevotes : Int → Option VoteSetReader
  precommits : Int → Option VoteSetReader

/-- `broadcastVotesForHeight`, sixth block: "if `prs.ProposalPOLRound ≠ -1`
and the POL prevote set is non-`nil`, pick-send from
`Prevotes(prs.ProposalPOLRound)`; on success return true"; this is the last
block, so the fall-through returns false. -/
def bvfhStage5 (rs : RoundStateView) (prs ps : PeerRoundState)
    (seed : Nat → Nat) (sendOK : Nat → Bool) : Bool × PeerRoundState :=
  if prs.proposalPOLRound ≠ -1 ∧ (rs.prevotes prs.proposalPOLRound).isSome then
    match pickSendVote ps (rs.prevotes prs.proposalPOLRound) (seed 5) (sendOK 5) with
    | (true, ps') => (true, ps')
    | (false, ps') => (false, ps')
  else (false, ps)

/-- `broadcastVotesForHeight`, fifth block: the catch-all pick-send from
`Prevotes(prs.Round)` under the round-knownness guards alone; falls through
to the sixth block. -/
def bvfhStage4 (rs : RoundStateView) (prs ps : PeerRoundState)
    (seed : Nat → Nat) (sendOK : Nat → Bool) : Bool × PeerRoundState :=
  if prs.round ≠ -1 ∧ prs.round ≤ rs.round then
    match pickSendVote ps (rs.prevotes prs.round) (seed 4) (sendOK 4) with
    | (true, ps') => (true, ps')
    | (false, ps') => bvfhStage5 rs prs ps' seed sendOK
  else bvfhStage5 rs prs ps seed sendOK

/-- `broadcastVotesForHeight`, fourth block: pick-send from
`Precommits(prs.Round)` when the peer is at/before `PrecommitWait`; falls
through to the fifth block. -/
def bvfhStage3 (rs : RoundStateView) (prs ps : PeerRoundState)
    (seed : Nat → Nat) (sendOK : Nat → Bool) : Bool × PeerRoundState :=
  if prs.step ≤ RoundStepPrecommitWait ∧ prs.round ≠ -1 ∧ prs.round ≤ rs.round then
    match pickSendVote ps (rs.precommits prs.round) (seed 3) (sendOK 3) with
    | (true, ps') => (true, ps')
    | (false, ps') => bvfhStage4 rs prs ps' seed sendOK
  else bvfhStage4 rs prs ps seed sendOK

/-- `broadcastVotesForHeight`, third block: pick-send from
`Prevotes(prs.Round)` when the peer is at/before `PrevoteWait`; falls
through to the fourth block. -/
def bvfhStage2 (rs : RoundStateView) (prs ps : PeerRoundState)
    (seed : Nat → Nat) (sendOK : Nat → Bool) : Bool × PeerRoundState :=
  if prs.step ≤ RoundStepPrevoteWait ∧ prs.round ≠ -1 ∧ prs.round ≤ rs.round then
    match pickSendVote ps (rs.prevotes prs.round) (seed 2) (sendOK 2) with
    | (true, ps') => (true, ps')
    | (false, ps') => bvfhStage3 rs prs ps' seed sendOK
  else bvfhStage3 rs prs ps seed sendOK

/-- `broadcastVotesForHeight`, second block: pick-send from
`Prevotes(prs.ProposalPOLRound)` when the peer is at/before `Propose`, its
round and POL round are known, its round is at most ours, and the POL
prevote set is non-`nil`; falls through to the third block. -/
def bvfhStage1 (rs : RoundStateView) (prs ps : PeerRoundState)
    (seed : Nat → Nat) (sendOK : Nat → Bool) : Bool × PeerRoundState :=
  if prs.step ≤ RoundStepPropose ∧ prs.round ≠ -1 ∧ prs.round ≤ rs.round ∧
      prs.proposalPOLRound ≠ -1 ∧ (rs.prevotes prs.proposalPOLRound).isSome then
    match pickSendVote ps (rs.prevotes prs.proposalPOLRound) (seed 1) (sendOK 1) with
    | (true, ps') => (true, ps')
    | (false, ps') => bvfhStage2 rs prs ps' seed sendOK
  else bvfhStage2 rs prs ps seed sendOK

/-- `Reactor.broadcastVotesForHeight` (our height = peer height), translated
block by block ("on a successful send, return true; otherwise fall through
to the next block", with the peer state threaded through the attempts since
`PickSendVote` may mutate it even on failure).  First block: pick-send from
`rs.LastCommit` if the peer's step is `NewHeight`.  `prs` is the round-state
snapshot used for the guards, `ps` the live peer state; the pick seeds and
the send outcomes of `peer.Send` are indexed by the block's position. -/
def broadcastVotesForHeight (rs : RoundStateView) (prs ps : PeerRoundState)
    (seed : Nat → Nat) (sendOK : Nat → Bool) : Bool × PeerRoundState :=
  if prs.step = RoundStepNewHeight then
    match pickSendVote ps rs.lastCommit (seed 0) (sendOK 0) with
    | (true, ps') => (true, ps')
    | (false, ps') => bvfhStage1 rs prs ps' seed sendOK
  else bvfhStage1 rs prs ps seed sendOK

/-- The ordered list of vote sources `broadcastVotesForHeight` tries, as the
spec enumerates them: each entry is its step/round guard (computed from the
snapshot `prs` and our `rs`) paired with the vote set it draws from. -/
def voteSources (rs : RoundStateView) (prs : PeerRoundState) :
    List (Bool × Option VoteSetReader) :=
  [ (prs.step = RoundStepNewHeight, rs.lastCommit),
    (decide (prs.step ≤ RoundStepPropose ∧ prs.round ≠ -1 ∧ prs.round ≤ rs.round ∧
       prs.proposalPOLRound ≠ -1 ∧ (rs.prevotes prs.proposalPOLRound).isSome),
     rs.prevotes prs.proposalPOLRound),
    (decide (prs.step ≤ RoundStepPrevoteWait ∧ prs.round ≠ -1 ∧ prs.round ≤ rs.round),
     rs.prevotes prs.round),
    (decide (prs.step ≤ RoundStepPrecommitWait ∧ prs.round ≠ -1 ∧ prs.round ≤ rs.round),
     rs.precommits prs.round),
    (decide (prs.round ≠ -1 ∧ prs.round ≤ rs.round), rs.prevotes prs.round),
    (decide (prs.proposalPOLRound ≠ -1 ∧ (rs.prevotes prs.proposalPOLRound).isSome),
     rs.prevotes prs.proposalPOLRound) ]

/-- First-success semantics over a list of guarded vote sources: attempt each
enabled source in order with `pickSendVote` and stop at the first successful
send, threading the peer state and the attempt position. -/
def firstSuccess (seed : Nat → Nat) (sendOK : Nat → Bool) :
    Nat → PeerRoundState → List (Bool × Option VoteSetReader) →
    Bool × PeerRoundState
  | _, ps, [] => (false, ps)
  | k, ps, (g, vs) :: rest =>
      if g then
        let a := pickSendVote ps vs (seed k) (sendOK k)
        if a.1 then a else firstSuccess seed sendOK (k + 1) a.2 rest
      else firstSuccess seed sendOK (k + 1) ps rest

/-- `types.Proposal`, restricted to the fields `SetHasProposal` reads. -/
structure Proposal where
  height : Int
  round : Int
  polRound : Int
  blockPartSetHeader : PartSetHeader
deriving Repr, DecidableEq

/-- `PeerState.SetHasProposal`: record that the peer has the proposal for its
current height and round; on first receipt, prime the block-part header and
bit array and the POL round from the proposal (unless a `NewValidBlock`
already set the parts). -/
def setHasProposalFn (prs : PeerRoundState) (p : Proposal) : PeerRoundState :=
  if prs.height ≠ p.height ∨ prs.round ≠ p.round then prs
  else if prs.proposal then prs
  else
    let prs1 := { prs with proposal := true }
    if prs1.proposalBlockParts ≠ none then prs1
    else
      { prs1 with proposalBlockPartSetHeader := p.blockPartSetHeader,
                  proposalBlockParts := some (newBitArray p.blockPartSetHeader.total),
                  proposalPOLRound := p.polRound,
                  proposalPOL := none }

/-- `PeerState.setHasProposalBlockPart`: set bit `index` of the peer's
proposal block parts when the height and round match (`SetIndex` on a `nil`
bit array is a no-op). -/
def setHasProposalBlockPartFn (prs : PeerRoundState) (height round : Int)
    (index : Nat) : PeerRoundState :=
  if prs.height ≠ height ∨ prs.round ≠ round then prs
  else
    match prs.proposalBlockParts with
    | none => prs
    | some ba => { prs with proposalBlockParts := some (baSetIndex ba index true) }

/-- `NewValidBlockMessage`. -/
structure NewValidBlockMsg where
  height : Int
  round : Int
  blockPartSetHeader : PartSetHeader
  blockParts : Option (List Bool)
  isCommit : Bool
deriving Repr, DecidableEq

/-- `PeerState.ApplyNewValidBlockMessage`: adopt the announced part-set
header and parts bit array at the peer's height (and round, unless the block
is a commit). -/
def applyNewValidBlockMessage (prs : PeerRoundState) (m : NewValidBlockMsg) :
    PeerRoundState :=
  if prs.height ≠ m.height then prs
  else if prs.round ≠ m.round ∧ ¬ m.isCommit then prs
  else { prs with proposalBlockPartSetHeader := m.blockPartSetHeader,
                  proposalBlockParts := m.blockParts }

/-- `ProposalPOLMessage`. -/
structure ProposalPOLMsg where
  height : Int
  proposalPOLRound : Int
  proposalPOL : List Bool
deriving Repr, DecidableEq

/-- `PeerState.ApplyProposalPOLMessage`: adopt the announced POL bit array
when the height and POL round match. -/
def applyProposalPOLMessage (prs : PeerRoundState) (m : ProposalPOLMsg) :
    PeerRoundState :=
  if prs.height ≠ m.height then prs
  else if prs.proposalPOLRound ≠ m.proposalPOLRound then prs
  else { prs with proposalPOL := some m.proposalPOL }

/-- `HasProposalBlockPartMessage`. -/
structure HasProposalBlockPartMsg where
  height : Int
  round : Int
  index : Nat
deriving Repr, DecidableEq

/-- `PeerState.ApplyHasProposalBlockPartMessage`: ignore other heights, then
`setHasProposalBlockPart`. -/
def applyHasProposalBlockPartMessage (prs : PeerRoundState)
    (m : HasProposalBlockPartMsg) : PeerRoundState :=
  if prs.height ≠ m.height then prs
  else setHasProposalBlockPartFn prs m.height m.round m.index

/-- `VoteSetBitsMessage`. -/
structure VoteSetBitsMsg where
  height : Int
  round : Int
  voteType : Nat
  blockID : Nat
  votes : List Bool
deriving Repr, DecidableEq

/-- `PeerState.ApplyVoteSetBitsMessage`: merge the peer's announced vote bits
into the bit array selected by `getVoteBitArray`, keeping any bits we
ourselves sent (those in `votes.Sub(ourVotes)`); with no local votes
available (`ourVotes = nil`), overwrite via `Update`. -/
def applyVoteSetBitsMessage (prs : PeerRoundState) (m : VoteSetBitsMsg)
    (ourVotes : Option (List Bool)) : PeerRoundState :=
  match getVoteBitArray prs m.height m.round m.voteType with
  | none => prs
  | some votes =>
      match ourVotes with
      | none => updateVoteBitArray prs m.height m.round m.voteType (baUpdate votes m.votes)
      | some ours =>
          let otherVotes := baSub votes ours
          let hasVotes := baOr otherVotes m.votes
          updateVoteBitArray prs m.height m.round m.voteType (baUpdate votes hasVotes)

/-- `VoteSetMaj23Message`. -/
structure VoteSetMaj23Msg where
  height : Int
  round : Int
  voteType : Nat
  blockID : Nat
deriving Repr, DecidableEq

/-- `VoteMessage` (the embedded signed vote, restricted to the fields the
reactor reads). -/
structure VoteMsg where
  vote : Vote
deriving Repr, DecidableEq

/-- `NewRoundStepMessage.ValidateHeight` against the chain's initial height,
as a boolean: the height must be at least the initial height, with
`LastCommitRound = -1` exactly at the initial height. -/
def validateHeightOK (m : NewRoundStepMsg) (initialHeight : Int) : Bool :=
  !(m.height < initialHeight) &&
  !(m.height = initialHeight && m.lastCommitRound ≠ -1) &&
  !(initialHeight < m.height && m.lastCommitRound < 0)

/-- `BlockPartMessage`, restricted to the fields the receive path reads (the
part's payload goes to the consensus state with the enqueued message). -/
structure BlockPartMsgT where
  height : Int
  round : Int
  partIndex : Nat
deriving Repr, DecidableEq

/-- A decoded consensus message (after `MsgFromProto` and `ValidateBasic`
both succeeded; the claims quantify over validly decoded envelopes). -/
inductive ConsMsg where
  | newRoundStep (m : NewRoundStepMsg) : ConsMsg
  | newValidBlock (m : NewValidBlockMsg) : ConsMsg
  | hasVote (m : HasVoteMsg) : ConsMsg
  | hasProposalBlockPart (m : HasProposalBlockPartMsg) : ConsMsg
  | voteSetMaj23 (m : VoteSetMaj23Msg) : ConsMsg
  | proposalMsg (m : Proposal) : ConsMsg
  | proposalPOL (m : ProposalPOLMsg) : ConsMsg
  | blockPart (m : BlockPartMsgT) : ConsMsg
  | voteMsg (m : VoteMsg) : ConsMsg
  | voteSetBits (m : VoteSetBitsMsg) : ConsMsg
deriving Repr, DecidableEq

/-- The four consensus channels. -/
inductive Channel where
  | state : Channel
  | data : Channel
  | voteCh : Channel
  | voteSetBitsCh : Channel
deriving Repr, DecidableEq

/-- The slice of the consensus state (an external collaborator, §6 of the
spec) that `Receive` reads under the state's lock: the chain's initial
height, the current height, the validator-set and last-commit sizes, and the
`HeightVoteSet` operations `SetPeerMaj23` (modelled by whether it returns an
error) and `Prevotes(r)/Precommits(r).BitArrayByBlockID(bid)` (modelled as a
lookup, `none` for a `nil` result).  Modelled from the spec: the consensus
state machine itself is out of scope. -/
structure CsView where
  initialHeight : Int
  height : Int
  validatorsSize : Nat
  lastCommitSize : Nat
  setPeerMaj23Err : Int → Nat → Nat → Bool
  bitArrayByBlockID : Int → Nat → Nat → Option (List Bool)

/-- A `VoteSetBits` reply sent back on the VoteSetBits channel (its `Votes`
field is unset when our bit array is `nil`). -/
structure SentVSB where
  height : Int
  round : Int
  voteType : Nat
  blockID : Nat
  votes : Option (List Bool)
deriving Repr, DecidableEq

/-- Observable effects of `Reactor.Receive` on one envelope: the updated
peer round state, the messages enqueued to the consensus state's
`peerMsgQueue`, the `VoteSetBits` replies sent, and whether the source peer
was stopped for a protocol error. -/
structure RecvEffects where
  prs : PeerRoundState
  enqueued : List ConsMsg
  sent : List SentVSB
  stoppedPeer : Bool

/-- No observable effect: the peer state is unchanged, nothing is enqueued
or sent, and the peer is not stopped. -/
def noEffects (prs : PeerRoundState) : RecvEffects :=
  { prs := prs, enqueued := [], sent := [], stoppedPeer := false }

/-- `Reactor.Receive` on a validly decoded envelope, dispatching on the
channel as the source does:
  * State channel: always processed (no `WaitSync` check) — `NewRoundStep`
    (after `ValidateHeight`, stopping the peer on failure), `NewValidBlock`,
    `HasVote`, `HasProposalBlockPart`, and `VoteSetMaj23` (height-gated;
    `SetPeerMaj23` errors stop the peer; otherwise a tailored `VoteSetBits`
    reply is sent); messages that belong to other channels only log.
  * Data channel: dropped while `waitSync`; otherwise `Proposal` and
    `BlockPart` update the peer state and are enqueued, `ProposalPOL`
    updates the peer state.
  * Vote channel: dropped while `waitSync`; otherwise ensure the vote bit
    arrays for the current and previous height, `SetHasVote`, and enqueue.
  * VoteSetBits channel: dropped while `waitSync`; otherwise merge against
    our votes when the height matches, else against `nil`. -/
def consReceive (waitSync : Bool) (cs : CsView) (now : Int) (ch : Channel)
    (msg : ConsMsg) (prs : PeerRoundState) : RecvEffects :=
  match ch with
  | .state =>
      match msg with
      | .newRoundStep m =>
          if !validateHeightOK m cs.initialHeight then
            { prs := prs, enqueued := [], sent := [], stoppedPeer := true }
          else { noEffects prs with prs := applyNewRoundStepMessage prs m now }
      | .newValidBlock m => { noEffects prs with prs := applyNewValidBlockMessage prs m }
      | .hasVote m => { noEffects prs with prs := applyHasVoteMessage prs m }
      | .hasProposalBlockPart m =>
          { noEffects prs with prs := applyHasProposalBlockPartMessage prs m }
      | .voteSetMaj23 m =>
          if cs.height ≠ m.height then noEffects prs
          else if cs.setPeerMaj23Err m.round m.voteType m.blockID then
            { prs := prs, enqueued := [], sent := [], stoppedPeer := true }
          else
            { noEffects prs with
                sent := [⟨m.height, m.round, m.voteType, m.blockID,
                           cs.bitArrayByBlockID m.round m.voteType m.blockID⟩] }
      | _ => noEffects prs
  | .data =>
      if waitSync then noEffects prs
      else
        match msg with
        | .proposalMsg p =>
            { noEffects prs with prs := setHasProposalFn prs p,
                                 enqueued := [.proposalMsg p] }
        | .proposalPOL m => { noEffects prs with prs := applyProposalPOLMessage prs m }
        | .blockPart m =>
            { noEffects prs with
                prs := setHasProposalBlockPartFn prs m.height m.round m.partIndex,
                enqueued := [.blockPart m] }
        | _ => noEffects prs
  | .voteCh =>
      if waitSync then noEffects prs
      else
        match msg with
        | .voteMsg m =>
            let prs1 := ensureVoteBitArraysFn prs cs.height cs.validatorsSize
            let prs2 := ensureVoteBitArraysFn prs1 (cs.height - 1) cs.lastCommitSize
            let prs3 := setHasVoteFn prs2 m.vote.height m.vote.round m.vote.voteType
                          m.vote.validatorIndex
            { noEffects prs with prs := prs3, enqueued := [.voteMsg m] }
        | _ => noEffects prs
  | .voteSetBitsCh =>
      if waitSync then noEffects prs
      else
        match msg with
        | .voteSetBits m =>
            if cs.height = m.height then
              { noEffects prs with
                  prs := applyVoteSetBitsMessage prs m
                           (cs.bitArrayByBlockID m.round m.voteType m.blockID) }
            else { noEffects prs with prs := applyVoteSetBitsMessage prs m none }
        | _ => noEffects prs

/-- Lexicographic order on (Height, Round, Step) triples: the sense in which
a peer's round state "never regresses". -/
def hrsLE (h1 r1 : Int) (s1 : Nat) (h2 r2 : Int) (s2 : Nat) : Prop :=
  h1 < h2 ∨ (h1 = h2 ∧ (r1 < r2 ∨ (r1 = r2 ∧ s1 ≤ s2)))

/-- Apply a sequence of `NewRoundStep` messages (each with the wall-clock
instant at which it is applied) to a peer round state. -/
def applyNewRoundStepSeq (prs : PeerRoundState) :
    List (NewRoundStepMsg × Int) → PeerRoundState
  | [] => prs
  | (m, now) :: rest => applyNewRoundStepSeq (applyNewRoundStepMessage prs m now) rest

/-- A concrete peer round state for scenario S4: height 7, round 3, step
`Prevote`. -/
def prsS4 : PeerRoundState :=
  ⟨7, 3, RoundStepPrevote, 0, false, PartSetHeader.empty, none, -1, none,
   none, none, -1, none, -1, none⟩

/-- A concrete consensus-state view for witnesses. -/
def csView0 : CsView := ⟨1, 10, 4, 4, fun _ _ _ => false, fun _ _ _ => none⟩

/-- A concrete peer round state at height 10 for witnesses. -/
def prsW10 : PeerRoundState :=
  ⟨10, 0, RoundStepPropose, 0, false, PartSetHeader.empty, none, -1, none,
   none, none, -1, none, -1, none⟩

/-- A concrete peer round state at height 5, round 0, with a one-validator
prevote bit array allocated and empty. -/
def prsPick : PeerRoundState :=
  ⟨5, 0, RoundStepPropose, 0, false, PartSetHeader.empty, none, -1, none,
   some [false], some [false], -1, none, -1, none⟩

/-- `prsPick` after `PickVoteToSend`'s lazy allocations (catchup-commit and
proposal-POL arrays allocated for one validator). -/
def prsPickAfter : PeerRoundState :=
  ⟨5, 0, RoundStepPropose, 0, false, PartSetHeader.empty, none, -1, some [false],
   some [false], some [false], -1, none, -1, some [false]⟩

/-- A concrete one-validator prevote set at height 5, round 0, whose single
vote is unseen by the peer. -/
def vsrPick : VoteSetReader :=
  ⟨5, 0, PrevoteType, false, [true], fun i => ⟨5, 0, PrevoteType, i⟩⟩

end Cons

namespace Mempool

theorem mapGet_mapSet_self {α : Type} (m : List (TxKey × α)) (k : TxKey) (v : α) :
    mapGet (mapSet m k v) k = some v := by
  induction m with
  | nil => simp [mapSet, mapGet]
  | cons hd tl ih =>
      by_cases h : hd.1 = k
      · cases hd; simp_all [mapSet, mapGet]
      · cases hd; simp_all [mapSet, mapGet]

theorem mapGet_mapDel_self {α : Type} (m : List (TxKey × α)) (k : TxKey) :
    mapGet (mapDel m k) k = none := by
  induction m with
  | nil => simp [mapDel, mapGet]
  | cons hd tl ih =>
      by_cases h : hd.1 = k
      · cases hd; simp_all [mapDel]
      · cases hd; simp_all [mapDel, mapGet]

/-- `broadcastStep` never touches `txSenders`. -/
theorem broadcastStep_txSenders (s : ReactorState) (k : TxKey) (p : PeerID) :
    (broadcastStep s k p).1.txSenders = s.txSenders := by
  simp only [broadcastStep, increaseSendersUncheckedRemoveCount, removeSendersUnchecked]
  split <;> rfl

/-- `isSender` is unchanged by a broadcast iteration. -/
theorem isSender_broadcastStep (s : ReactorState) (k' : TxKey) (p' : PeerID)
    (k : TxKey) (p : PeerID) :
    isSender (broadcastStep s k' p').1 k p = isSender s k p := by
  simp only [isSender, broadcastStep_txSenders]

/-- The send decision of a broadcast iteration, as a function of the
pre-iteration state: send iff the target peer is not a recorded sender and no
unchecked sender is a connected peer. -/
theorem broadcastStep_send (s : ReactorState) (k : TxKey) (p : PeerID) :
    (broadcastStep s k p).2 =
      (!isSender s k p &&
       !((senderListUnchecked s k).any (fun q => s.peers.contains q))) := by
  have h := broadcastStep_txSenders s k p
  simp only [broadcastStep] at h
  simp only [broadcastStep, isSender]
  rw [h]

/-- The remove counter written by a broadcast iteration. -/
theorem broadcastStep_count (s : ReactorState) (k : TxKey) (p : PeerID) :
    (broadcastStep s k p).1.txSendersUncheckedRemoveCount =
      mapSet s.txSendersUncheckedRemoveCount k
        (int32wrap ((mapGet s.txSendersUncheckedRemoveCount k).getD 0 + 1)) := by
  simp only [broadcastStep, increaseSendersUncheckedRemoveCount, removeSendersUnchecked]
  split <;> rfl

/-- The unchecked-sender map after a broadcast iteration: the entry for the
visited key is deleted exactly when the incremented counter reaches 3. -/
theorem broadcastStep_unchecked (s : ReactorState) (k : TxKey) (p : PeerID) :
    (broadcastStep s k p).1.txSendersUnchecked =
      if 3 ≤ int32wrap ((mapGet s.txSendersUncheckedRemoveCount k).getD 0 + 1)
      then mapDel s.txSendersUnchecked k else s.txSendersUnchecked := by
  simp only [broadcastStep, increaseSendersUncheckedRemoveCount, removeSendersUnchecked]
  split <;> rfl

/-- A broadcast iteration never creates an unchecked-sender entry. -/
theorem broadcastStep_unchecked_none (s : ReactorState) (k : TxKey) (p : PeerID)
    (h : mapGet s.txSendersUnchecked k = none) :
    mapGet (broadcastStep s k p).1.txSendersUnchecked k = none := by
  rw [broadcastStep_unchecked]
  split
  · exact mapGet_mapDel_self _ _
  · exact h

/-- Once absent, the unchecked-sender entry stays absent under any further
visits. -/
theorem visitN_unchecked_none (s : ReactorState) (k : TxKey) (ps : List PeerID)
    (h : mapGet s.txSendersUnchecked k = none) :
    mapGet (visitN s k ps).txSendersUnchecked k = none := by
  induction ps generalizing s with
  | nil => exact h
  | cons p rest ih => exact ih _ (broadcastStep_unchecked_none s k p h)

/-- Claim C3: once peer `p` is a member of `SenderSet[tx]` (recorded via
`addSender`), no subsequent iteration of the broadcast routine — for `p` or
any other peer, in any order — sends a `Txs` envelope containing `tx` to
`p`: broadcast iterations never modify `txSenders`, and the send guard
`!isSender(tx.Key(), peer.ID())` suppresses the send for `p`. -/
theorem mempool_never_resend_to_sender (s : ReactorState) (k : TxKey) (p : PeerID)
    (h : isSender s k p = true) (evs : List (TxKey × PeerID)) :
    (k, p) ∉ (runBroadcast s evs).2 := by
  induction evs generalizing s with
  | nil => simp [runBroadcast]
  | cons ev rest ih =>
      obtain ⟨k', p'⟩ := ev
      simp only [runBroadcast, List.mem_append, not_or]
      constructor
      · intro hmem
        by_cases hs : (broadcastStep s k' p').2 = true
        · simp only [hs, if_pos, List.mem_singleton, Prod.mk.injEq] at hmem
          obtain ⟨hk, hp⟩ := hmem
          subst hk; subst hp
          rw [broadcastStep_send, h] at hs
          simp at hs
        · simp only [Bool.not_eq_true] at hs
          simp [hs] at hmem
      · exact ih _ (by rw [isSender_broadcastStep]; exact h)

/-- Witness for C3 at a concrete state: peer 1 sent us tx 0, and three
broadcast iterations (two for peer 1's routine, one for peer 2's) never send
tx 0 to peer 1. -/
theorem mempool_never_resend_to_sender_witness :
    (0, 1) ∉ (runBroadcast ⟨[(0, [1])], [], [], [1, 2], false⟩
                [(0, 1), (0, 2), (0, 1)]).2 :=
  mempool_never_resend_to_sender _ 0 1 (by decide) _

/-- Claim C1 (amended): in direct-broadcast mode, an iteration of
`broadcastTxRoutine` whose evaluation finds some member of
`UncheckedSenderSet[t]` among the currently connected peers suppresses the
send to every peer.  (The original claim also lets a connected sender in
`SenderSet[t]` suppress the send; the code only consults
`UncheckedSenderSet` for the `isFromPeer` decision — see the
counterexample.) -/
theorem mempool_fromPeer_suppresses_send (s : ReactorState) (k : TxKey) (p : PeerID)
    (h : (senderListUnchecked s k).any (fun q => s.peers.contains q) = true) :
    (broadcastStep s k p).2 = false := by
  rw [broadcastStep_send, h]
  simp

/-- Witness for C1 (amended): peer 1 is an unchecked sender of tx 0 and is
connected, so the iteration for peer 2 does not send. -/
theorem mempool_fromPeer_suppresses_send_witness :
    (broadcastStep ⟨[], [(0, [1])], [], [1, 2], false⟩ 0 2).2 = false :=
  mempool_fromPeer_suppresses_send _ 0 2 (by decide)

/-- Claim C1 counterexample: a state where peer 1 — a currently connected
peer — is a member of `SenderSet[t] ∪ UncheckedSenderSet[t]` (it is in
`SenderSet[t]`; the unchecked entry has already been erased by the
remove-count mechanism), yet the broadcast iteration for peer 2 produces an
outbound `Txs\x7b[t]\x7d` envelope: the code's `isFromPeer` check reads only
`UncheckedSenderSet`, never `SenderSet`. -/
theorem mempool_senderSet_not_suppressing :
    ((senderList ⟨[(0, [1])], [], [(0, 3)], [1, 2], false⟩ 0 ++
        senderListUnchecked ⟨[(0, [1])], [], [(0, 3)], [1, 2], false⟩ 0).any
      (fun q => (⟨[(0, [1])], [], [(0, 3)], [1, 2], false⟩ : ReactorState).peers.contains q)
        = true) ∧
    (broadcastStep ⟨[(0, [1])], [], [(0, 3)], [1, 2], false⟩ 0 2).2 = true := by
  decide

/-- Claim C2 (amended): the `UncheckedSenderSet` entry of a transaction is
removed after exactly 3 dissemination-loop visits — 3 being the hard-coded
threshold, not the number of active broadcast loops — regardless of whether
CheckTx ever accepted the transaction: starting from a zero remove counter,
fewer than 3 visits leave the entry untouched and any 3 or more visits leave
it deleted. -/
theorem mempool_unchecked_removed_after_three_visits (s : ReactorState) (k : TxKey)
    (h : (mapGet s.txSendersUncheckedRemoveCount k).getD 0 = 0) (ps : List PeerID) :
    (ps.length < 3 →
      mapGet (visitN s k ps).txSendersUnchecked k = mapGet s.txSendersUnchecked k) ∧
    (3 ≤ ps.length → mapGet (visitN s k ps).txSendersUnchecked k = none) := by
  match ps with
  | [] => exact ⟨fun _ => rfl, by simp⟩
  | [p1] =>
      refine ⟨fun _ => ?_, by simp⟩
      show mapGet (broadcastStep s k p1).1.txSendersUnchecked k = _
      rw [broadcastStep_unchecked, h, if_neg (by decide)]
  | [p1, p2] =>
      have h1 : mapGet (broadcastStep s k p1).1.txSendersUncheckedRemoveCount k = some 1 := by
        rw [broadcastStep_count, h, mapGet_mapSet_self]
        decide
      have e1 : (broadcastStep s k p1).1.txSendersUnchecked = s.txSendersUnchecked := by
        rw [broadcastStep_unchecked, h, if_neg (by decide)]
      refine ⟨fun _ => ?_, by simp⟩
      show mapGet (broadcastStep (broadcastStep s k p1).1 k p2).1.txSendersUnchecked k = _
      rw [broadcastStep_unchecked, h1]
      rw [if_neg (by decide), e1]
  | p1 :: p2 :: p3 :: rest =>
      have h1 : mapGet (broadcastStep s k p1).1.txSendersUncheckedRemoveCount k = some 1 := by
        rw [broadcastStep_count, h, mapGet_mapSet_self]
        decide
      have h2 : mapGet (broadcastStep (broadcastStep s k p1).1 k p2).1.txSendersUncheckedRemoveCount k
          = some 2 := by
        rw [broadcastStep_count, h1, mapGet_mapSet_self]
        decide
      have e3 : mapGet (broadcastStep (broadcastStep (broadcastStep s k p1).1 k p2).1 k p3).1.txSendersUnchecked k
          = none := by
        rw [broadcastStep_unchecked, h2, if_pos (by decide)]
        exact mapGet_mapDel_self _ _
      refine ⟨fun hc => absurd hc (by simp), fun _ => ?_⟩
      show mapGet (visitN (broadcastStep (broadcastStep (broadcastStep s k p1).1 k p2).1 k p3).1 k rest).txSendersUnchecked k = none
      exact visitN_unchecked_none _ _ _ e3

/-- Witness for C2 (amended): tx 0 arrived from peer 5, the counter starts at
zero; three visits delete the unchecked entry, fewer leave it in place. -/
theorem mempool_unchecked_removed_after_three_visits_witness :
    (([1, 2, 3] : List PeerID).length < 3 →
      mapGet (visitN ⟨[], [(0, [5])], [], [], false⟩ 0 [1, 2, 3]).txSendersUnchecked 0 =
        mapGet (⟨[], [(0, [5])], [], [], false⟩ : ReactorState).txSendersUnchecked 0) ∧
    (3 ≤ ([1, 2, 3] : List PeerID).length →
      mapGet (visitN ⟨[], [(0, [5])], [], [], false⟩ 0 [1, 2, 3]).txSendersUnchecked 0 = none) :=
  mempool_unchecked_removed_after_three_visits _ 0 (by decide) [1, 2, 3]

/-- Claim C2 counterexample: with a single active broadcast loop (one
connected peer, peer 9), the claimed threshold is 1, so the unchecked entry
for tx 0 should be gone after that loop's one visit; it is still present —
the code removes only at the fixed count 3. -/
theorem mempool_unchecked_threshold_not_loop_count :
    mapGet (visitN ⟨[], [(0, [5])], [], [9], false⟩ 0 [9]).txSendersUnchecked 0 = some [5] := by
  decide

/-- Claim C9 (amended): a `Txs` envelope delivered while `WaitSync` is set is
dropped — sender sets unchanged, `CheckTx` not invoked, nothing sent, source
peer not stopped.  (The original claim covers every envelope; an
unknown-type message stops the peer even during `WaitSync` — see the
counterexample.) -/
theorem mempool_receive_waitSync_drops_txs (s : ReactorState) (src : PeerID)
    (check : Tx → CheckOutcome) (l : List Tx) (h : s.waitSync = true) :
    receive s src check (.txs l) =
      { state := s, checkTxCalled := [], stoppedPeer := false } := by
  simp [receive, h]

/-- Witness for C9 (amended) at a concrete syncing reactor. -/
theorem mempool_receive_waitSync_drops_txs_witness :
    receive ⟨[], [], [], [], true⟩ 3 (fun _ => CheckOutcome.errOther) (.txs [7]) =
      { state := ⟨[], [], [], [], true⟩, checkTxCalled := [], stoppedPeer := false } :=
  mempool_receive_waitSync_drops_txs _ 3 _ [7] rfl

/-- Claim C9 counterexample: an unknown-type message received while
`waitSync` is set is not dropped — the source peer is stopped for a protocol
error, because the `WaitSync` guard sits inside the `Txs` case only. -/
theorem mempool_receive_waitSync_unknown_stops_peer :
    (⟨[], [], [], [], true⟩ : ReactorState).waitSync = true ∧
    (receive ⟨[], [], [], [], true⟩ 3 (fun _ => CheckOutcome.errOther) .other).stoppedPeer
      = true :=
  ⟨rfl, rfl⟩

/-- Claim C10: a received `Txs` message with an empty transaction list only
logs and returns: `txSenders` and `txSendersUnchecked` are unchanged,
`CheckTx` is invoked on no transaction, and the source peer is not
stopped. -/
theorem mempool_receive_empty_txs_noop (s : ReactorState) (src : PeerID)
    (check : Tx → CheckOutcome) :
    receive s src check (.txs []) =
      { state := s, checkTxCalled := [], stoppedPeer := false } := by
  by_cases h : s.waitSync <;> simp [receive, h]

end Mempool

namespace Cons

theorem hrsLE_refl (h r : Int) (s : Nat) : hrsLE h r s h r s := by
  unfold hrsLE
  omega

theorem hrsLE_trans {h1 r1 : Int} {s1 : Nat} {h2 r2 : Int} {s2 : Nat}
    {h3 r3 : Int} {s3 : Nat} (a : hrsLE h1 r1 s1 h2 r2 s2)
    (b : hrsLE h2 r2 s2 h3 r3 s3) : hrsLE h1 r1 s1 h3 r3 s3 := by
  unfold hrsLE at a b ⊢
  omega

/-- A positive `CompareHRS` result means the first triple is lexicographically
above the second. -/
theorem compareHRS_pos {h1 r1 : Int} {s1 : Nat} {h2 r2 : Int} {s2 : Nat}
    (h : 0 < compareHRS h1 r1 s1 h2 r2 s2) : hrsLE h2 r2 s2 h1 r1 s1 := by
  unfold compareHRS at h
  unfold hrsLE
  split_ifs at h <;> omega

/-- When the monotonicity guard passes, the applied message's coordinates are
stored verbatim. -/
theorem applyNewRoundStep_hrs (prs : PeerRoundState) (msg : NewRoundStepMsg)
    (now : Int)
    (h : ¬ compareHRS msg.height msg.round msg.step prs.height prs.round prs.step ≤ 0) :
    (applyNewRoundStepMessage prs msg now).height = msg.height ∧
    (applyNewRoundStepMessage prs msg now).round = msg.round ∧
    (applyNewRoundStepMessage prs msg now).step = msg.step := by
  simp only [applyNewRoundStepMessage, if_neg h]
  split_ifs <;> simp

/-- One `NewRoundStep` application never regresses the stored
(Height, Round, Step). -/
theorem applyNewRoundStep_monotone_step (prs : PeerRoundState)
    (msg : NewRoundStepMsg) (now : Int) :
    hrsLE prs.height prs.round prs.step
      (applyNewRoundStepMessage prs msg now).height
      (applyNewRoundStepMessage prs msg now).round
      (applyNewRoundStepMessage prs msg now).step := by
  by_cases h : compareHRS msg.height msg.round msg.step prs.height prs.round prs.step ≤ 0
  · unfold applyNewRoundStepMessage
    rw [if_pos h]
    exact hrsLE_refl _ _ _
  · obtain ⟨e1, e2, e3⟩ := applyNewRoundStep_hrs prs msg now h
    rw [e1, e2, e3]
    exact compareHRS_pos (by omega)

theorem applyNewRoundStepSeq_monotone (prs : PeerRoundState)
    (msgs : List (NewRoundStepMsg × Int)) :
    hrsLE prs.height prs.round prs.step
      (applyNewRoundStepSeq prs msgs).height
      (applyNewRoundStepSeq prs msgs).round
      (applyNewRoundStepSeq prs msgs).step := by
  induction msgs generalizing prs with
  | nil => exact hrsLE_refl _ _ _
  | cons mn rest ih =>
      obtain ⟨m, now⟩ := mn
      exact hrsLE_trans (applyNewRoundStep_monotone_step prs m now)
        (ih (applyNewRoundStepMessage prs m now))

/-- Claim C4: `ApplyNewRoundStepMessage` is monotone — a message with
`CompareHRS(msg.Height, msg.Round, msg.Step, prs.Height, prs.Round, prs.Step)
≤ 0` leaves the entire `PeerRoundState` unchanged (no side effects), and
consequently, after applying any sequence of `NewRoundStep` messages, the
stored (Height, Round, Step) never regresses. -/
theorem cons_apply_newRoundStep_monotone :
    (∀ (prs : PeerRoundState) (msg : NewRoundStepMsg) (now : Int),
        compareHRS msg.height msg.round msg.step prs.height prs.round prs.step ≤ 0 →
        applyNewRoundStepMessage prs msg now = prs) ∧
    (∀ (prs : PeerRoundState) (msgs : List (NewRoundStepMsg × Int)),
        hrsLE prs.height prs.round prs.step
          (applyNewRoundStepSeq prs msgs).height
          (applyNewRoundStepSeq prs msgs).round
          (applyNewRoundStepSeq prs msgs).step) := by
  constructor
  · intro prs msg now h
    unfold applyNewRoundStepMessage
    rw [if_pos h]
  · exact applyNewRoundStepSeq_monotone

/-- Witness for C4, scenario S4: prs = (H=7, R=3, S=Prevote); a stale
`NewRoundStep(H=7, R=3, S=Propose)` leaves the state unchanged. -/
theorem cons_apply_newRoundStep_monotone_witness :
    applyNewRoundStepMessage prsS4 ⟨7, 3, RoundStepPropose, 0, 2⟩ 0 = prsS4 :=
  cons_apply_newRoundStep_monotone.1 prsS4 ⟨7, 3, RoundStepPropose, 0, 2⟩ 0 (by decide)

/-- Claim C7: a `NewRoundStep` message that passes the monotonicity guard and
changes the height sets `LastCommitRound := msg.LastCommitRound`, resets
`CatchupCommitRound := -1` with `CatchupCommit := nil`, and shifts the peer's
previous `Precommits` into `LastCommit` exactly when the height advanced by
one and the previous round equals `msg.LastCommitRound`, otherwise leaving
`LastCommit := nil`. -/
theorem cons_apply_newRoundStep_height_advance (prs : PeerRoundState)
    (msg : NewRoundStepMsg) (now : Int)
    (hg : 0 < compareHRS msg.height msg.round msg.step prs.height prs.round prs.step)
    (hh : prs.height ≠ msg.height) :
    (applyNewRoundStepMessage prs msg now).lastCommitRound = msg.lastCommitRound ∧
    (applyNewRoundStepMessage prs msg now).catchupCommitRound = -1 ∧
    (applyNewRoundStepMessage prs msg now).catchupCommit = none ∧
    (prs.height + 1 = msg.height ∧ prs.round = msg.lastCommitRound →
      (applyNewRoundStepMessage prs msg now).lastCommit = prs.precommits) ∧
    (¬ (prs.height + 1 = msg.height ∧ prs.round = msg.lastCommitRound) →
      (applyNewRoundStepMessage prs msg now).lastCommit = none) := by
  have hng : ¬ compareHRS msg.height msg.round msg.step prs.height prs.round prs.step ≤ 0 := by
    omega
  simp only [applyNewRoundStepMessage, if_neg hng]
  split_ifs <;> simp_all

/-- Witness for C7: height 5 → 6 with the previous round matching
`LastCommitRound = 2`, so the old precommit bits become the new
`LastCommit`. -/
theorem cons_apply_newRoundStep_height_advance_witness :
    (applyNewRoundStepMessage
        ⟨5, 2, RoundStepPrecommit, 0, false, PartSetHeader.empty, none, -1, none,
         none, some [true, false], -1, none, 1, some [false, false]⟩
        ⟨6, 0, RoundStepNewHeight, 0, 2⟩ 0).lastCommitRound = 2 ∧
    (applyNewRoundStepMessage
        ⟨5, 2, RoundStepPrecommit, 0, false, PartSetHeader.empty, none, -1, none,
         none, some [true, false], -1, none, 1, some [false, false]⟩
        ⟨6, 0, RoundStepNewHeight, 0, 2⟩ 0).catchupCommitRound = -1 ∧
    (applyNewRoundStepMessage
        ⟨5, 2, RoundStepPrecommit, 0, false, PartSetHeader.empty, none, -1, none,
         none, some [true, false], -1, none, 1, some [false, false]⟩
        ⟨6, 0, RoundStepNewHeight, 0, 2⟩ 0).catchupCommit = none ∧
    ((5 : Int) + 1 = 6 ∧ (2 : Int) = 2 →
      (applyNewRoundStepMessage
        ⟨5, 2, RoundStepPrecommit, 0, false, PartSetHeader.empty, none, -1, none,
         none, some [true, false], -1, none, 1, some [false, false]⟩
        ⟨6, 0, RoundStepNewHeight, 0, 2⟩ 0).lastCommit = some [true, false]) ∧
    (¬ ((5 : Int) + 1 = 6 ∧ (2 : Int) = 2) →
      (applyNewRoundStepMessage
        ⟨5, 2, RoundStepPrecommit, 0, false, PartSetHeader.empty, none, -1, none,
         none, some [true, false], -1, none, 1, some [false, false]⟩
        ⟨6, 0, RoundStepNewHeight, 0, 2⟩ 0).lastCommit = none) :=
  cons_apply_newRoundStep_height_advance
    ⟨5, 2, RoundStepPrecommit, 0, false, PartSetHeader.empty, none, -1, none,
     none, some [true, false], -1, none, 1, some [false, false]⟩
    ⟨6, 0, RoundStepNewHeight, 0, 2⟩ 0 (by decide) (by decide)

/-- Claim C8: applying a `HasVote` message at the peer's current height with
an unallocated bit-array slot never panics and leaves the `PeerRoundState`
unchanged — `getVoteBitArray` returns `nil` for every invalid vote type and
reads the (possibly `nil`) field for unallocated slots, `setHasVote` is a
no-op whenever the selection is `nil`, and in particular a `HasVote` with
`prs.Prevotes = nil` at a matching height, round and prevote type is a
no-op. -/
theorem cons_hasVote_nil_noop :
    (∀ (prs : PeerRoundState) (h r : Int) (t : Nat),
        IsVoteTypeValid t = false → getVoteBitArray prs h r t = none) ∧
    (∀ (prs : PeerRoundState) (h r : Int) (t : Nat) (i : Nat),
        getVoteBitArray prs h r t = none → setHasVoteFn prs h r t i = prs) ∧
    (∀ (prs : PeerRoundState) (m : HasVoteMsg),
        prs.height = m.height →
        getVoteBitArray prs m.height m.round m.voteType = none →
        applyHasVoteMessage prs m = prs) ∧
    (∀ (prs : PeerRoundState) (m : HasVoteMsg),
        prs.height = m.height → prs.round = m.round → m.voteType = PrevoteType →
        prs.prevotes = none → applyHasVoteMessage prs m = prs) := by
  have hset : ∀ (prs : PeerRoundState) (h r : Int) (t : Nat) (i : Nat),
      getVoteBitArray prs h r t = none → setHasVoteFn prs h r t i = prs := by
    intro prs h r t i hnone
    unfold setHasVoteFn
    rw [hnone]
  have happly : ∀ (prs : PeerRoundState) (m : HasVoteMsg),
      prs.height = m.height →
      getVoteBitArray prs m.height m.round m.voteType = none →
      applyHasVoteMessage prs m = prs := by
    intro prs m hh hnone
    unfold applyHasVoteMessage
    rw [if_neg (by simp [hh]), hset prs m.height m.round m.voteType m.index hnone]
  refine ⟨?_, hset, happly, ?_⟩
  · intro prs h r t hval
    unfold getVoteBitArray
    rw [hval]
    simp
  · intro prs m hh hr ht hpv
    refine happly prs m hh ?_
    unfold getVoteBitArray
    rw [← hh, ← hr, ht]
    simp [IsVoteTypeValid, hpv]

/-- Witness for C8, scenario S5: `prs.Prevotes = nil` at the matching height
10, round 0; `HasVote(10, 0, Prevote, idx = 4)` is a no-op. -/
theorem cons_hasVote_nil_noop_witness :
    applyHasVoteMessage prsW10 ⟨10, 0, PrevoteType, 4⟩ = prsW10 :=
  cons_hasVote_nil_noop.2.2.2 prsW10 ⟨10, 0, PrevoteType, 4⟩ rfl rfl rfl rfl

/-- Claim C5: while `WaitSync` is true, a validly decoded envelope on the
Data, Vote or VoteSetBits channel is dropped — the peer round state is
unchanged, nothing is enqueued to the consensus state, nothing is sent, and
the peer is not stopped — while a State-channel envelope is processed with
exactly the same effects as when `WaitSync` is false. -/
theorem cons_receive_waitSync :
    (∀ (cs : CsView) (now : Int) (ch : Channel) (msg : ConsMsg)
        (prs : PeerRoundState), ch ≠ Channel.state →
        consReceive true cs now ch msg prs = noEffects prs) ∧
    (∀ (cs : CsView) (now : Int) (msg : ConsMsg) (prs : PeerRoundState),
        consReceive true cs now Channel.state msg prs =
          consReceive false cs now Channel.state msg prs) := by
  constructor
  · intro cs now ch msg prs h
    cases ch with
    | state => exact absurd rfl h
    | data => simp [consReceive]
    | voteCh => simp [consReceive]
    | voteSetBitsCh => simp [consReceive]
  · intro cs now msg prs
    rfl

/-- Witness for C5: a `HasVote` message on the Vote channel during sync has
no effect. -/
theorem cons_receive_waitSync_witness :
    consReceive true csView0 0 Channel.voteCh
      (.voteMsg ⟨⟨10, 0, PrevoteType, 0⟩⟩) prsW10 = noEffects prsW10 :=
  cons_receive_waitSync.1 csView0 0 Channel.voteCh
    (.voteMsg ⟨⟨10, 0, PrevoteType, 0⟩⟩) prsW10 (by decide)

/-- Pointwise reading of the bit-array difference: bit `i` of `a.Sub(b)` is
`a[i] AND NOT b[i]`. -/
theorem baGet_baSub (a b : List Bool) (i : Nat) :
    baGet (baSub a b) i = (baGet a i && !(baGet b i)) := by
  induction a generalizing b i with
  | nil => simp [baSub, baGet]
  | cons x a ih =>
      cases b with
      | nil => simp [baSub, baGet]
      | cons y b =>
          cases i with
          | zero => simp [baSub, baGet]
          | succ n => simpa [baSub, baGet] using ih b n

/-- `PickRandom` only ever returns the index of a true bit, whatever the
seed. -/
theorem pickRandom_true (seed : Nat) (l : List Bool) (i : Nat)
    (h : pickRandom seed l = some i) : baGet l i = true := by
  simp only [pickRandom] at h
  split at h
  · simp at h
  · injection h with h
    subst h
    have hall : ∀ j ∈ trueIndices l, baGet l j = true := by
      intro j hj
      unfold trueIndices at hj
      exact (List.mem_filter.mp hj).2
    exact hall _ (List.get_mem _ _ _)

/-- Unfolding step of `firstSuccess` on a cons cell. -/
theorem firstSuccess_cons (seed : Nat → Nat) (sendOK : Nat → Bool) (k : Nat)
    (ps : PeerRoundState) (g : Bool) (vs : Option VoteSetReader)
    (rest : List (Bool × Option VoteSetReader)) :
    firstSuccess seed sendOK k ps ((g, vs) :: rest) =
      (if g then
        (if (pickSendVote ps vs (seed k) (sendOK k)).1
         then pickSendVote ps vs (seed k) (sendOK k)
         else firstSuccess seed sendOK (k + 1) (pickSendVote ps vs (seed k) (sendOK k)).2 rest)
       else firstSuccess seed sendOK (k + 1) ps rest) := by
  cases g <;> simp [firstSuccess]

/-- A successful `PickVoteToSend` picks only an index lying in
`votes.BitArray() AND NOT peerBitArray`. -/
theorem pickVoteToSend_mask (prs : PeerRoundState) (v : VoteSetReader)
    (seed : Nat) (vote : Vote) (prs' : PeerRoundState)
    (h : pickVoteToSend prs (some v) seed = (some vote, prs')) :
    ∃ (i : Nat) (psVotes : List Bool),
      getVoteBitArray prs' v.height v.round v.voteType = some psVotes ∧
      vote = v.getByIndex i ∧
      baGet v.bitArray i = true ∧ baGet psVotes i = false := by
  simp only [pickVoteToSend] at h
  by_cases hsz : v.bitArray.length = 0
  · rw [if_pos hsz] at h
    simp at h
  · rw [if_neg hsz] at h
    split at h
    · simp at h
    · rename_i psVotes hga
      split at h
      · rename_i i hpr
        simp only [Prod.mk.injEq, Option.some.injEq] at h
        obtain ⟨hv, hp⟩ := h
        have hbit := pickRandom_true seed _ i hpr
        rw [baGet_baSub] at hbit
        refine ⟨i, psVotes, ?_, hv.symm, ?_, ?_⟩
        · rw [← hp]
          exact hga
        · exact (Bool.and_eq_true _ _).mp hbit |>.1
        · have h2 := (Bool.and_eq_true _ _).mp hbit |>.2
          simpa using h2
      · simp at h

/-- A vote sent by `PickSendVote` is recorded for the peer via
`SetHasVote`. -/
theorem pickSendVote_records (prs : PeerRoundState) (votes : Option VoteSetReader)
    (seed : Nat) (ps' : PeerRoundState)
    (h : pickSendVote prs votes seed true = (true, ps')) :
    ∃ (vote : Vote) (prs1 : PeerRoundState),
      pickVoteToSend prs votes seed = (some vote, prs1) ∧
      ps' = setHasVoteFn prs1 vote.height vote.round vote.voteType vote.validatorIndex := by
  unfold pickSendVote at h
  cases hp : pickVoteToSend prs votes seed with
  | mk o prs1 =>
      rw [hp] at h
      cases o with
      | none => simp at h
      | some vote =>
          simp only [if_true, Prod.mk.injEq] at h
          exact ⟨vote, prs1, rfl, h.2.symm⟩

theorem bvfhStage5_eq (rs : RoundStateView) (prs ps : PeerRoundState)
    (seed : Nat → Nat) (sendOK : Nat → Bool) :
    bvfhStage5 rs prs ps seed sendOK =
      firstSuccess seed sendOK 5 ps
        [(decide (prs.proposalPOLRound ≠ -1 ∧ (rs.prevotes prs.proposalPOLRound).isSome = true),
          rs.prevotes prs.proposalPOLRound)] := by
  rw [firstSuccess_cons]
  simp only [decide_eq_true_eq]
  unfold bvfhStage5
  by_cases g : prs.proposalPOLRound ≠ -1 ∧ (rs.prevotes prs.proposalPOLRound).isSome = true
  · rw [if_pos g, if_pos g]
    cases hp : pickSendVote ps (rs.prevotes prs.proposalPOLRound) (seed 5) (sendOK 5) with
    | mk b ps' =>
        cases b <;> simp [firstSuccess]
  · rw [if_neg g, if_neg g]
    simp [firstSuccess]

theorem bvfhStage4_eq (rs : RoundStateView) (prs ps : PeerRoundState)
    (seed : Nat → Nat) (sendOK : Nat → Bool) :
    bvfhStage4 rs prs ps seed sendOK =
      firstSuccess seed sendOK 4 ps
        [(decide (prs.round ≠ -1 ∧ prs.round ≤ rs.round), rs.prevotes prs.round),
         (decide (prs.proposalPOLRound ≠ -1 ∧ (rs.prevotes prs.proposalPOLRound).isSome = true),
          rs.prevotes prs.proposalPOLRound)] := by
  rw [firstSuccess_cons]
  simp only [decide_eq_true_eq]
  unfold bvfhStage4
  by_cases g : prs.round ≠ -1 ∧ prs.round ≤ rs.round
  · rw [if_pos g, if_pos g]
    cases hp : pickSendVote ps (rs.prevotes prs.round) (seed 4) (sendOK 4) with
    | mk b ps' =>
        cases b
        · simpa using bvfhStage5_eq rs prs ps' seed sendOK
        · simp
  · rw [if_neg g, if_neg g]
    exact bvfhStage5_eq rs prs ps seed sendOK

theorem bvfhStage3_eq (rs : RoundStateView) (prs ps : PeerRoundState)
    (seed : Nat → Nat) (sendOK : Nat → Bool) :
    bvfhStage3 rs prs ps seed sendOK =
      firstSuccess seed sendOK 3 ps
        [(decide (prs.step ≤ RoundStepPrecommitWait ∧ prs.round ≠ -1 ∧ prs.round ≤ rs.round),
          rs.precommits prs.round),
         (decide (prs.round ≠ -1 ∧ prs.round ≤ rs.round), rs.prevotes prs.round),
         (decide (prs.proposalPOLRound ≠ -1 ∧ (rs.prevotes prs.proposalPOLRound).isSome = true),
          rs.prevotes prs.proposalPOLRound)] := by
  rw [firstSuccess_cons]
  simp only [decide_eq_true_eq]
  unfold bvfhStage3
  by_cases g : prs.step ≤ RoundStepPrecommitWait ∧ prs.round ≠ -1 ∧ prs.round ≤ rs.round
  · rw [if_pos g, if_pos g]
    cases hp : pickSendVote ps (rs.precommits prs.round) (seed 3) (sendOK 3) with
    | mk b ps' =>
        cases b
        · simpa using bvfhStage4_eq rs prs ps' seed sendOK
        · simp
  · rw [if_neg g, if_neg g]
    exact bvfhStage4_eq rs prs ps seed sendOK

theorem bvfhStage2_eq (rs : RoundStateView) (prs ps : PeerRoundState)
    (seed : Nat → Nat) (sendOK : Nat → Bool) :
    bvfhStage2 rs prs ps seed sendOK =
      firstSuccess seed sendOK 2 ps
        [(decide (prs.step ≤ RoundStepPrevoteWait ∧ prs.round ≠ -1 ∧ prs.round ≤ rs.round),
          rs.prevotes prs.round),
         (decide (prs.step ≤ RoundStepPrecommitWait ∧ prs.round ≠ -1 ∧ prs.round ≤ rs.round),
          rs.precommits prs.round),
         (decide (prs.round ≠ -1 ∧ prs.round ≤ rs.round), rs.prevotes prs.round),
         (decide (prs.proposalPOLRound ≠ -1 ∧ (rs.prevotes prs.proposalPOLRound).isSome = true),
          rs.prevotes prs.proposalPOLRound)] := by
  rw [firstSuccess_cons]
  simp only [decide_eq_true_eq]
  unfold bvfhStage2
  by_cases g : prs.step ≤ RoundStepPrevoteWait ∧ prs.round ≠ -1 ∧ prs.round ≤ rs.round
  · rw [if_pos g, if_pos g]
    cases hp : pickSendVote ps (rs.prevotes prs.round) (seed 2) (sendOK 2) with
    | mk b ps' =>
        cases b
        · simpa using bvfhStage3_eq rs prs ps' seed sendOK
        · simp
  · rw [if_neg g, if_neg g]
    exact bvfhStage3_eq rs prs ps seed sendOK

theorem bvfhStage1_eq (rs : RoundStateView) (prs ps : PeerRoundState)
    (seed : Nat → Nat) (sendOK : Nat → Bool) :
    bvfhStage1 rs prs ps seed sendOK =
      firstSuccess seed sendOK 1 ps
        [(decide (prs.step ≤ RoundStepPropose ∧ prs.round ≠ -1 ∧ prs.round ≤ rs.round ∧
            prs.proposalPOLRound ≠ -1 ∧ (rs.prevotes prs.proposalPOLRound).isSome = true),
          rs.prevotes prs.proposalPOLRound),
         (decide (prs.step ≤ RoundStepPrevoteWait ∧ prs.round ≠ -1 ∧ prs.round ≤ rs.round),
          rs.prevotes prs.round),
         (decide (prs.step ≤ RoundStepPrecommitWait ∧ prs.round ≠ -1 ∧ prs.round ≤ rs.round),
          rs.precommits prs.round),
         (decide (prs.round ≠ -1 ∧ prs.round ≤ rs.round), rs.prevotes prs.round),
         (decide (prs.proposalPOLRound ≠ -1 ∧ (rs.prevotes prs.proposalPOLRound).isSome = true),
          rs.prevotes prs.proposalPOLRound)] := by
  rw [firstSuccess_cons]
  simp only [decide_eq_true_eq]
  unfold bvfhStage1
  by_cases g : prs.step ≤ RoundStepPropose ∧ prs.round ≠ -1 ∧ prs.round ≤ rs.round ∧
      prs.proposalPOLRound ≠ -1 ∧ (rs.prevotes prs.proposalPOLRound).isSome = true
  · rw [if_pos g, if_pos g]
    cases hp : pickSendVote ps (rs.prevotes prs.proposalPOLRound) (seed 1) (sendOK 1) with
    | mk b ps' =>
        cases b
        · simpa using bvfhStage2_eq rs prs ps' seed sendOK
        · simp
  · rw [if_neg g, if_neg g]
    exact bvfhStage2_eq rs prs ps seed sendOK

/-- The block-by-block cascade of the source equals first-success iteration
over the spec's ordered source list. -/
theorem broadcastVotesForHeight_eq_firstSuccess (rs : RoundStateView)
    (prs ps : PeerRoundState) (seed : Nat → Nat) (sendOK : Nat → Bool) :
    broadcastVotesForHeight rs prs ps seed sendOK =
      firstSuccess seed sendOK 0 ps (voteSources rs prs) := by
  rw [voteSources, firstSuccess_cons]
  simp only [decide_eq_true_eq]
  unfold broadcastVotesForHeight
  by_cases g : prs.step = RoundStepNewHeight
  · rw [if_pos g, if_pos g]
    cases hp : pickSendVote ps rs.lastCommit (seed 0) (sendOK 0) with
    | mk b ps' =>
        cases b
        · simpa using bvfhStage1_eq rs prs ps' seed sendOK
        · simp
  · rw [if_neg g, if_neg g]
    exact bvfhStage1_eq rs prs ps seed sendOK

/-- Claim C6: at equal heights, `broadcastVotesForHeight` tries the vote
sources in exactly the order LastCommit (peer at `NewHeight`),
`Prevotes(ProposalPOLRound)`, `Prevotes(prs.Round)`, `Precommits(prs.Round)`,
`Prevotes(prs.Round)` again, `Prevotes(ProposalPOLRound)` again — each under
its step/round preconditions — returning true at the first source whose vote
is successfully sent and attempting no later source (the first-success
semantics of `firstSuccess` over `voteSources`); each successful pick
selects only an index set in `votes.BitArray() AND NOT peerBitArray`; and a
successful send records the vote via `SetHasVote`. -/
theorem cons_broadcastVotes_order :
    (∀ (rs : RoundStateView) (prs ps : PeerRoundState) (seed : Nat → Nat)
        (sendOK : Nat → Bool),
        broadcastVotesForHeight rs prs ps seed sendOK =
          firstSuccess seed sendOK 0 ps (voteSources rs prs)) ∧
    (∀ (prs : PeerRoundState) (v : VoteSetReader) (seed : Nat) (vote : Vote)
        (prs' : PeerRoundState),
        pickVoteToSend prs (some v) seed = (some vote, prs') →
        ∃ (i : Nat) (psVotes : List Bool),
          getVoteBitArray prs' v.height v.round v.voteType = some psVotes ∧
          vote = v.getByIndex i ∧
          baGet v.bitArray i = true ∧ baGet psVotes i = false) ∧
    (∀ (prs : PeerRoundState) (votes : Option VoteSetReader) (seed : Nat)
        (ps' : PeerRoundState),
        pickSendVote prs votes seed true = (true, ps') →
        ∃ (vote : Vote) (prs1 : PeerRoundState),
          pickVoteToSend prs votes seed = (some vote, prs1) ∧
          ps' = setHasVoteFn prs1 vote.height vote.round vote.voteType
                  vote.validatorIndex) :=
  ⟨broadcastVotesForHeight_eq_firstSuccess, pickVoteToSend_mask, pickSendVote_records⟩

/-- Witness for C6: a one-validator prevote set whose single vote the peer
lacks; the pick selects index 0, which is set in our bit array and clear in
the peer's. -/
theorem cons_broadcastVotes_order_witness :
    ∃ (i : Nat) (psVotes : List Bool),
      getVoteBitArray prsPickAfter vsrPick.height vsrPick.round vsrPick.voteType
          = some psVotes ∧
      (⟨5, 0, PrevoteType, 0⟩ : Vote) = vsrPick.getByIndex i ∧
      baGet vsrPick.bitArray i = true ∧ baGet psVotes i = false :=
  cons_broadcastVotes_order.2.1 prsPick vsrPick 0 ⟨5, 0, PrevoteType, 0⟩
    prsPickAfter (by decide)

end Cons
